import Mathlib

namespace Acceleott

/-! Shallow embedding of the Acceleott backend auth core: the controllers in
the controllers file (registerUser, verifyEmail, resendVerification,
loginUser, getMe), the User schema with its pre-save password-hash hook, and
the state they act on. Randomness (token bytes, bcrypt salts), the clock,
and email-transport success are passed in as explicit oracle arguments. -/

/-- Symbolic model of the string values handled by the crypto primitives:
plain strings, bcrypt hashes (bcryptjs: salted, one per call), and sha256
hex digests (crypto.createHash). Free constructors model the primitives as
collision-free and one-way. -/
inductive Val where
  | str (s : String)
  | bcrypt (salt : Nat) (v : Val)
  | sha256 (v : Val)
deriving DecidableEq

/-- Model of bcrypt.hash(v, salt). -/
def bcryptHash (salt : Nat) (v : Val) : Val := Val.bcrypt salt v

/-- Model of bcrypt.compare(candidate, stored): true exactly when the stored
value is a bcrypt hash of the candidate (under any salt). -/
def bcryptCompare (candidate stored : Val) : Bool :=
  match stored with
  | Val.bcrypt _ v => v == candidate
  | _ => false

/-- Model of crypto.createHash("sha256").update(v).digest("hex"). -/
def sha256Hex (v : Val) : Val := Val.sha256 v

/-- Model of the JS String.prototype.toLowerCase() used on emails. -/
def jsToLower (s : String) : String := String.mk (s.data.map Char.toLower)

/-- Model of the JS String.prototype.trim(): strip whitespace on both ends. -/
def jsTrim (s : String) : String :=
  String.mk (((s.data.dropWhile Char.isWhitespace).reverse.dropWhile
    Char.isWhitespace).reverse)

/-- The normalization email.toLowerCase().trim() applied by the controllers
(and matching the schema lowercase/trim setters). -/
def normalizeEmail (e : String) : String := jsTrim (jsToLower e)

/-- A persisted User document, after the schema of the User model: name,
unique normalized email, password hash, optional profile fields,
emailVerified flag, and the hidden verifyToken digest / verifyTokenExpires
timestamp (milliseconds). -/
structure StoredUser where
  id : Nat
  name : String
  email : String
  password : Val
  phone : Option String := none
  occupation : Option String := none
  source : Option String := none
  emailVerified : Bool := false
  verifyToken : Option Val := none
  verifyTokenExpires : Option Nat := none
deriving DecidableEq

/-- The users collection plus an id allocator. -/
structure Db where
  users : List StoredUser
  nextId : Nat
deriving DecidableEq

def initialDb : Db := { users := [], nextId := 0 }

/-- Model of User.findOne on an email filter: first document whose stored
email equals the filter value. -/
def findOneByEmail (db : Db) (e : String) : Option StoredUser :=
  db.users.find? (fun u => u.email == e)

/-- Replace the first element satisfying p by its image under f: the effect
of findOne followed by mutating that document and saving it. -/
def updateFirst (p : StoredUser → Bool) (f : StoredUser → StoredUser) :
    List StoredUser → List StoredUser
  | [] => []
  | x :: xs => if p x then f x :: xs else x :: updateFirst p f xs

/-- Outcome of POST /register (registerUser). -/
inductive RegRes where
  | validationError
  | duplicateError
  | created
deriving DecidableEq

/-- HTTP status of each register outcome, after the controller. -/
def RegRes.status : RegRes → Nat
  | .validationError => 400
  | .duplicateError => 400
  | .created => 201

/-- Outcome of GET /verify/:token (verifyEmail). -/
inductive VerifyRes where
  | validationError
  | invalidOrExpired
  | redirectSuccess
deriving DecidableEq

/-- Outcome of POST /resend-verification (resendVerification). -/
inductive ResendRes where
  | validationError
  | notFound
  | alreadyVerified
  | sent
  | serverError
deriving DecidableEq

/-- HTTP status of each resend outcome, after the controller. -/
def ResendRes.status : ResendRes → Nat
  | .validationError => 400
  | .notFound => 404
  | .alreadyVerified => 200
  | .sent => 200
  | .serverError => 500

/-- The session cookie set by a successful login: an httpOnly cookie named
token holding a jwt for the user id, maxAge one day. -/
structure SessionCookie where
  userId : Nat
  maxAgeMs : Nat
  httpOnly : Bool
deriving DecidableEq

/-- Outcome of POST /login (loginUser). -/
inductive LoginRes where
  | validationError
  | invalidCredentials
  | notVerified
  | success (id : Nat) (name email : String) (cookie : SessionCookie)
deriving DecidableEq

/-- HTTP status of each login outcome, after the controller. -/
def LoginRes.status : LoginRes → Nat
  | .validationError => 400
  | .invalidCredentials => 400
  | .notVerified => 403
  | .success _ _ _ _ => 200

/-- Embedding of registerUser in the controllers file, composed with the
User schema pre-save hook: the controller checks required fields, rejects a
duplicate of the normalized email, hashes the password with bcrypt, and
creates the user; User.create fires the pre-save hook, which sees the
password path modified and hashes the already-hashed password a second
time. The verification token digest and a 24h expiry are then saved, and
the verification email (plus optional admin email) is sent without await:
its failure is caught and logged, so emailOk influences neither the result
nor the state. Returns the new state, the result, and the list of attempted
email recipients. -/
def registerUser (db : Db) (name email password : String)
    (phone occupation source : Option String)
    (ctrlSalt hookSalt : Nat) (rawToken : String) (now : Nat)
    (adminEmail : Option String) (_emailOk : Bool) :
    Db × RegRes × List String :=
  if name = "" || email = "" || password = "" then
    (db, RegRes.validationError, [])
  else
    match findOneByEmail db (normalizeEmail email) with
    | some _ => (db, RegRes.duplicateError, [])
    | none =>
      let hashed := bcryptHash ctrlSalt (Val.str password)
      let user : StoredUser :=
        { id := db.nextId
          name := jsTrim name
          email := normalizeEmail email
          password := bcryptHash hookSalt hashed
          phone := phone
          occupation := occupation
          source := source
          emailVerified := false
          verifyToken := some (sha256Hex (Val.str rawToken))
          verifyTokenExpires := some (now + 24 * 60 * 60 * 1000) }
      let recipients :=
        normalizeEmail email :: (match adminEmail with
          | some a => [a]
          | none => [])
      ({ users := db.users ++ [user], nextId := db.nextId + 1 },
        RegRes.created, recipients)

/-- The findOne filter of verifyEmail: stored digest equals the presented
digest and verifyTokenExpires is strictly greater than Date.now(). -/
def verifyTokenMatches (digest : Val) (now : Nat) (u : StoredUser) : Bool :=
  u.verifyToken == some digest &&
    (match u.verifyTokenExpires with
      | some e => decide (now < e)
      | none => false)

/-- The mutation verifyEmail applies to the matched user: set emailVerified,
clear both token fields, save. -/
def clearTokenAndVerify (u : StoredUser) : StoredUser :=
  { u with emailVerified := true, verifyToken := none,
           verifyTokenExpires := none }

/-- Embedding of verifyEmail in the controllers file: reject an empty token,
digest it, find a user whose stored digest matches with an unexpired
verifyTokenExpires, and on a match set emailVerified and clear both token
fields. -/
def verifyEmail (db : Db) (token : String) (now : Nat) : Db × VerifyRes :=
  if token = "" then (db, VerifyRes.validationError)
  else
    let hashed := sha256Hex (Val.str token)
    match db.users.find? (verifyTokenMatches hashed now) with
    | none => (db, VerifyRes.invalidOrExpired)
    | some _ =>
      ({ db with
          users := updateFirst (verifyTokenMatches hashed now)
            clearTokenAndVerify db.users },
        VerifyRes.redirectSuccess)

/-- Embedding of resendVerification in the controllers file: reject an empty
email, 404 on an unknown normalized email, no-op success on an already
verified user, otherwise overwrite the token digest and expiry and save,
then await the verification email; a transport failure reaches the catch
block and returns a 500 after the document was already saved. -/
def resendVerification (db : Db) (email rawToken : String) (now : Nat)
    (emailOk : Bool) : Db × ResendRes × List String :=
  if email = "" then (db, ResendRes.validationError, [])
  else
    match findOneByEmail db (normalizeEmail email) with
    | none => (db, ResendRes.notFound, [])
    | some u =>
      if u.emailVerified then (db, ResendRes.alreadyVerified, [])
      else
        let users := updateFirst (fun v => v.email == normalizeEmail email)
          (fun v =>
            { v with verifyToken := some (sha256Hex (Val.str rawToken)),
                     verifyTokenExpires := some (now + 24 * 60 * 60 * 1000) })
          db.users
        if emailOk then ({ db with users := users }, ResendRes.sent, [u.email])
        else ({ db with users := users }, ResendRes.serverError, [u.email])

/-- Embedding of loginUser in the controllers file: reject missing fields,
look up the normalized email, then check emailVerified BEFORE comparing the
password with bcrypt, and on success sign a jwt for the user id and set it
as an httpOnly cookie with a one-day maxAge. Reads only; never writes. -/
def loginUser (db : Db) (email password : String) : LoginRes :=
  if email = "" || password = "" then LoginRes.validationError
  else
    match findOneByEmail db (normalizeEmail email) with
    | none => LoginRes.invalidCredentials
    | some u =>
      if !u.emailVerified then LoginRes.notVerified
      else if !(bcryptCompare (Val.str password) u.password) then
        LoginRes.invalidCredentials
      else
        LoginRes.success u.id u.name u.email
          { userId := u.id, maxAgeMs := 24 * 60 * 60 * 1000, httpOnly := true }

/-- Field names of a full User document as serialized by mongoose: optional
fields appear only when set. -/
def userDocFields (u : StoredUser) : List String :=
  ["_id", "name", "email", "password"]
    ++ (if u.phone.isSome then ["phone"] else [])
    ++ (if u.occupation.isSome then ["occupation"] else [])
    ++ (if u.source.isSome then ["source"] else [])
    ++ ["emailVerified"]
    ++ (if u.verifyToken.isSome then ["verifyToken"] else [])
    ++ (if u.verifyTokenExpires.isSome then ["verifyTokenExpires"] else [])
    ++ ["createdAt", "updatedAt"]

/-- The exclusion projection of getMe: select("-password -verifyToken
-verifyTokenExpires"); the same three fields are also select:false in the
schema. -/
def getMeSelectExclusions : List String :=
  ["password", "verifyToken", "verifyTokenExpires"]

/-- Fields of the GET /me response body for a user: the document fields
minus the excluded ones. -/
def getMeResponseFields (u : StoredUser) : List String :=
  (userDocFields u).filter (fun f => !(getMeSelectExclusions.contains f))

/-- The operations the collection state is reachable through. -/
inductive Op where
  | register (name email password : String)
      (phone occupation source : Option String)
      (ctrlSalt hookSalt : Nat) (rawToken : String) (now : Nat)
      (adminEmail : Option String) (emailOk : Bool)
  | verify (token : String) (now : Nat)
  | resend (email rawToken : String) (now : Nat) (emailOk : Bool)
  | login (email password : String)

/-- State effect of one operation (loginUser never writes). -/
def applyOp (db : Db) : Op → Db
  | .register n e p ph oc so s1 s2 tok now adm ok =>
      (registerUser db n e p ph oc so s1 s2 tok now adm ok).1
  | .verify tok now => (verifyEmail db tok now).1
  | .resend e tok now ok => (resendVerification db e tok now ok).1
  | .login _ _ => db

/-- States reachable from the empty collection through the four operations. -/
inductive Reachable : Db → Prop where
  | init : Reachable initialDb
  | step (db : Db) (op : Op) : Reachable db → Reachable (applyOp db op)

/-- Both token fields present together or absent together, and a verified
user holds neither. -/
def tokenFieldsConsistent (u : StoredUser) : Prop :=
  u.verifyToken.isSome = u.verifyTokenExpires.isSome ∧
  (u.emailVerified = true → u.verifyToken = none ∧ u.verifyTokenExpires = none)

instance (u : StoredUser) : Decidable (tokenFieldsConsistent u) := by
  unfold tokenFieldsConsistent; infer_instance

/-- Every user in the collection satisfies tokenFieldsConsistent. -/
def dbInv (db : Db) : Prop := ∀ u ∈ db.users, tokenFieldsConsistent u

/-- State after registering Ann in the empty store, with oracle salts 0 and
1, raw token "rawtok", and clock 100. -/
def dbAnnPending : Db :=
  (registerUser initialDb "Ann" "Ann@X.com" "secret1" none none none 0 1
    "rawtok" 100 none true).1

/-- The stored record produced by that registration: note the password was
hashed twice, once by the controller and once by the pre-save hook. -/
def annPendingUser : StoredUser :=
  { id := 0
    name := "Ann"
    email := "ann@x.com"
    password := Val.bcrypt 1 (Val.bcrypt 0 (Val.str "secret1"))
    emailVerified := false
    verifyToken := some (Val.sha256 (Val.str "rawtok"))
    verifyTokenExpires := some (100 + 24 * 60 * 60 * 1000) }

/-- State after Ann follows the verification link at clock 200. -/
def dbAnnVerified : Db := (verifyEmail dbAnnPending "rawtok" 200).1

/-- Ann after verification: flag set, token fields cleared. -/
def annVerifiedUser : StoredUser := clearTokenAndVerify annPendingUser

theorem updateFirst_length (p : StoredUser → Bool) (f : StoredUser → StoredUser) :
    ∀ l : List StoredUser, (updateFirst p f l).length = l.length := by
  intro l
  induction l with
  | nil => rfl
  | cons a as ih => by_cases hpa : p a = true <;> simp [updateFirst, hpa, ih]

theorem mem_updateFirst_of_find {p : StoredUser → Bool}
    {f : StoredUser → StoredUser} {l : List StoredUser} {u : StoredUser}
    (hf : l.find? p = some u) :
    ∀ x ∈ updateFirst p f l, x ∈ l ∨ x = f u := by
  induction l with
  | nil => intro x hx; simp [updateFirst] at hx
  | cons a as ih =>
    intro x hx
    by_cases hpa : p a = true
    · rw [List.find?_cons_of_pos _ hpa, Option.some_inj] at hf
      simp only [updateFirst, if_pos hpa] at hx
      rcases List.mem_cons.mp hx with h | h
      · exact Or.inr (by rw [h, hf])
      · exact Or.inl (List.mem_cons_of_mem _ h)
    · rw [List.find?_cons_of_neg _ hpa] at hf
      simp only [updateFirst, if_neg hpa] at hx
      rcases List.mem_cons.mp hx with h | h
      · exact Or.inl (by rw [h]; exact List.mem_cons_self _ _)
      · rcases ih hf x h with h2 | h2
        · exact Or.inl (List.mem_cons_of_mem _ h2)
        · exact Or.inr h2

theorem updateFirst_get {p : StoredUser → Bool} {f : StoredUser → StoredUser} :
    ∀ (l : List StoredUser) (i : Nat) (h : i < l.length)
      (h2 : i < (updateFirst p f l).length),
      (updateFirst p f l).get ⟨i, h2⟩ = l.get ⟨i, h⟩ ∨
      (updateFirst p f l).get ⟨i, h2⟩ = f (l.get ⟨i, h⟩) := by
  intro l
  induction l with
  | nil => intro i h; simp at h
  | cons a as ih =>
    intro i h h2
    by_cases hpa : p a = true
    · cases i with
      | zero => right; simp [updateFirst, hpa]
      | succ n => left; simp [updateFirst, hpa]
    · cases i with
      | zero => left; simp [updateFirst, hpa]
      | succ n =>
        have h3 : n < as.length := by simpa using h
        have h4 : n < (updateFirst p f as).length := by
          rw [updateFirst_length]; exact h3
        rcases ih n h3 h4 with hc | hc
        · left; simpa [updateFirst, hpa] using hc
        · right; simpa [updateFirst, hpa] using hc

theorem digest_of_verifyTokenMatches {d : Val} {now : Nat} {u : StoredUser}
    (h : verifyTokenMatches d now u = true) :
    (u.verifyToken == some d) = true := by
  unfold verifyTokenMatches at h
  exact ((Bool.and_eq_true _ _).mp h).1

theorem verifyTokenMatches_iff (d : Val) (now : Nat) (u : StoredUser) :
    verifyTokenMatches d now u = true ↔
    u.verifyToken = some d ∧ ∃ e, u.verifyTokenExpires = some e ∧ now < e := by
  cases he : u.verifyTokenExpires with
  | none => simp [verifyTokenMatches, he]
  | some e => simp [verifyTokenMatches, he]

theorem updateFirst_clears_digest (d : Val) (now : Nat) :
    ∀ (l : List StoredUser) (u : StoredUser),
      (l.filter (fun x => x.verifyToken == some d)).length ≤ 1 →
      l.find? (verifyTokenMatches d now) = some u →
      ∀ x ∈ updateFirst (verifyTokenMatches d now) clearTokenAndVerify l,
        (x.verifyToken == some d) = false := by
  intro l
  induction l with
  | nil => intro u _ hf; simp at hf
  | cons a as ih =>
    intro u hcount hf x hx
    by_cases hpa : verifyTokenMatches d now a = true
    · have hda := digest_of_verifyTokenMatches hpa
      rw [List.filter_cons_of_pos (p := fun (w : StoredUser) => w.verifyToken == some d) hda] at hcount
      have hnil : as.filter (fun x => x.verifyToken == some d) = [] := by
        apply List.length_eq_zero.mp
        simp only [List.length_cons] at hcount
        omega
      simp only [updateFirst, if_pos hpa] at hx
      rcases List.mem_cons.mp hx with hxa | hxas
      · rw [hxa]; simp [clearTokenAndVerify]
      · exact Bool.eq_false_iff.mpr (List.filter_eq_nil_iff.mp hnil x hxas)
    · rw [List.find?_cons_of_neg _ hpa] at hf
      have hu_mem := List.mem_of_find?_eq_some hf
      have hud := digest_of_verifyTokenMatches (List.find?_some hf)
      have hda : (a.verifyToken == some d) = false := by
        cases hval : (a.verifyToken == some d) with
        | false => rfl
        | true =>
          exfalso
          rw [List.filter_cons_of_pos (p := fun (w : StoredUser) => w.verifyToken == some d) hval] at hcount
          have hmemf : u ∈ as.filter (fun x => x.verifyToken == some d) :=
            List.mem_filter.mpr ⟨hu_mem, hud⟩
          have hpos : 0 < (as.filter (fun x => x.verifyToken == some d)).length :=
            List.length_pos.mpr (List.ne_nil_of_mem hmemf)
          simp only [List.length_cons] at hcount
          omega
      rw [List.filter_cons_of_neg (p := fun (w : StoredUser) => w.verifyToken == some d) (by simp [hda])] at hcount
      simp only [updateFirst, if_neg hpa] at hx
      rcases List.mem_cons.mp hx with hxa | hxas
      · rw [hxa]; exact hda
      · exact ih u hcount hf x hxas

theorem dbInv_applyOp {db : Db} (op : Op) (h : dbInv db) : dbInv (applyOp db op) := by
  cases op with
  | register n e p ph oc so s1 s2 tok now adm ok =>
    simp only [applyOp, registerUser]
    split
    · exact h
    · split
      · exact h
      · intro u hu
        rcases List.mem_append.mp hu with hold | hnew
        · exact h u hold
        · rcases List.mem_singleton.mp hnew with rfl
          simp [tokenFieldsConsistent]
  | verify tok now =>
    simp only [applyOp, verifyEmail]
    split
    · exact h
    · rcases hfind : List.find? (verifyTokenMatches (sha256Hex (Val.str tok)) now) db.users with _ | u
      · simp only [hfind]; exact h
      · simp only [hfind]
        intro x hx
        rcases mem_updateFirst_of_find hfind x hx with hold | hrepl
        · exact h x hold
        · rw [hrepl]; simp [tokenFieldsConsistent, clearTokenAndVerify]
  | resend e tok now ok =>
    simp only [applyOp, resendVerification]
    split
    · exact h
    · rcases hfind : findOneByEmail db (normalizeEmail e) with _ | u
      · simp only [hfind]; exact h
      · simp only [hfind]
        split
        · exact h
        · rename_i hver
          have hmem : ∀ x ∈ updateFirst (fun v => v.email == normalizeEmail e)
              (fun v =>
                { v with verifyToken := some (sha256Hex (Val.str tok)),
                         verifyTokenExpires := some (now + 24 * 60 * 60 * 1000) })
              db.users, tokenFieldsConsistent x := by
            intro x hx
            rcases mem_updateFirst_of_find hfind x hx with hold | hrepl
            · exact h x hold
            · rw [hrepl]
              refine ⟨rfl, ?_⟩
              intro hvtrue
              exact absurd hvtrue hver
          split
          · exact hmem
          · exact hmem
  | login e p => exact h

/-- C1: the round-trip the spec promises fails on this code. Registering Ann
with password secret1 succeeds (201) and verifying the raw token succeeds
and sets emailVerified, but the stored password hash is the pre-save hook
hash of the controller hash, so a login with the normalized email and the
same password is rejected with InvalidCredentials (400) instead of
succeeding with 200 and a session cookie. -/
theorem c1_round_trip_login_fails :
    (registerUser initialDb "Ann" "Ann@X.com" "secret1" none none none 0 1
        "rawtok" 100 none true).2.1 = RegRes.created ∧
    (verifyEmail dbAnnPending "rawtok" 200).2 = VerifyRes.redirectSuccess ∧
    findOneByEmail dbAnnVerified "ann@x.com" = some annVerifiedUser ∧
    annVerifiedUser.emailVerified = true ∧
    annVerifiedUser.password =
      Val.bcrypt 1 (Val.bcrypt 0 (Val.str "secret1")) ∧
    loginUser dbAnnVerified "ann@x.com" "secret1" =
      LoginRes.invalidCredentials ∧
    LoginRes.invalidCredentials.status = 400 := by
  decide

/-- C2 counterexample: on the unverified account of Ann, a login with a
wrong password returns NotVerifiedError (403), not InvalidCredentials
(400), because loginUser checks emailVerified before comparing the
password; the claim says a wrong password on an unverified account never
yields NotVerifiedError. -/
theorem c2_counterexample :
    loginUser dbAnnPending "ann@x.com" "wrongpw" = LoginRes.notVerified ∧
    bcryptCompare (Val.str "wrongpw") annPendingUser.password = false ∧
    LoginRes.notVerified.status = 403 ∧
    LoginRes.notVerified ≠ LoginRes.invalidCredentials := by
  decide

/-- C2 amended: loginUser checks the verification state strictly BEFORE the
credential match, so on an existing unverified account every password
(right or wrong) yields NotVerifiedError (403); InvalidCredentials (400)
is returned for a wrong password only on a verified account. -/
theorem c2_login_checks_verification_first (db : Db)
    (email password : String) (u : StoredUser)
    (he : email ≠ "") (hp : password ≠ "")
    (hfind : findOneByEmail db (normalizeEmail email) = some u) :
    (u.emailVerified = false →
      loginUser db email password = LoginRes.notVerified) ∧
    (u.emailVerified = true →
      bcryptCompare (Val.str password) u.password = false →
      loginUser db email password = LoginRes.invalidCredentials) := by
  constructor
  · intro hv
    simp [loginUser, he, hp, hfind, hv]
  · intro hv hc
    simp [loginUser, he, hp, hfind, hv, hc]

/-- C2 witness: the amended theorem applied to Ann pending verification. -/
theorem c2_witness :
    loginUser dbAnnPending "ann@x.com" "wrongpw" = LoginRes.notVerified :=
  (c2_login_checks_verification_first dbAnnPending "ann@x.com" "wrongpw"
    annPendingUser (by decide) (by decide) (by decide)).1 (by decide)

/-- C5: a registration whose normalized email is already stored fails with
DuplicateError, the state is unchanged, and no email is attempted. -/
theorem c5_duplicate_registration_rejected (db : Db)
    (name email password : String) (ph oc so : Option String)
    (s1 s2 : Nat) (tok : String) (now : Nat) (adm : Option String)
    (ok : Bool) (hn : name ≠ "") (he : email ≠ "") (hp : password ≠ "")
    (hdup : ∃ u ∈ db.users, u.email = normalizeEmail email) :
    registerUser db name email password ph oc so s1 s2 tok now adm ok =
      (db, RegRes.duplicateError, []) := by
  have hfind : (findOneByEmail db (normalizeEmail email)).isSome := by
    rcases hdup with ⟨u, hu, hue⟩
    exact List.find?_isSome.mpr ⟨u, hu, by simp [hue]⟩
  rcases hsome : findOneByEmail db (normalizeEmail email) with _ | u
  · rw [hsome] at hfind; simp at hfind
  · simp [registerUser, he, hn, hp, hsome]

/-- C5 witness: re-registering Ann under a differently cased email is
rejected as a duplicate and creates nothing. -/
theorem c5_witness :
    registerUser dbAnnPending "Bob" "ANN@x.com" "pw2" none none none 2 3
      "tk" 400 none true = (dbAnnPending, RegRes.duplicateError, []) :=
  c5_duplicate_registration_rejected dbAnnPending "Bob" "ANN@x.com" "pw2"
    none none none 2 3 "tk" 400 none true (by decide) (by decide)
    (by decide) (by decide)

/-- C7: resendVerification on an already-verified account returns the 200
no-op success, leaves the state (hence the stored token fields) unchanged,
and attempts no email. -/
theorem c7_resend_on_verified_noop (db : Db) (email tok : String)
    (now : Nat) (ok : Bool) (u : StoredUser) (he : email ≠ "")
    (hfind : findOneByEmail db (normalizeEmail email) = some u)
    (hv : u.emailVerified = true) :
    resendVerification db email tok now ok =
      (db, ResendRes.alreadyVerified, []) := by
  simp [resendVerification, he, hfind, hv]

/-- C7 witness: the no-op resend on the verified Ann. -/
theorem c7_witness :
    resendVerification dbAnnVerified "Ann@x.com " "tk2" 500 true =
      (dbAnnVerified, ResendRes.alreadyVerified, []) :=
  c7_resend_on_verified_noop dbAnnVerified "Ann@x.com " "tk2" 500 true
    annVerifiedUser (by decide) (by decide) (by decide)

/-- C10: the GET /me response excludes the password hash and both token
fields for every user state: the handler selects them out and the schema
additionally marks all three select:false. -/
theorem c10_me_response_hides_secret_fields (u : StoredUser) :
    "password" ∉ getMeResponseFields u ∧
    "verifyToken" ∉ getMeResponseFields u ∧
    "verifyTokenExpires" ∉ getMeResponseFields u := by
  refine ⟨?_, ?_, ?_⟩ <;>
  · intro h
    rw [getMeResponseFields, List.mem_filter] at h
    exact absurd h.2 (by decide)

/-- C4: for a nonempty token, verification succeeds exactly when some user
stores the digest of the presented token with an expiry strictly in the
future of the call time; otherwise the call fails with
InvalidOrExpiredToken, in particular at or after the expiry instant even
when the digest matches. -/
theorem c4_verify_success_iff_match_unexpired (db : Db) (tok : String)
    (now : Nat) (ht : tok ≠ "") :
    ((verifyEmail db tok now).2 = VerifyRes.redirectSuccess ↔
      ∃ u ∈ db.users, u.verifyToken = some (sha256Hex (Val.str tok)) ∧
        ∃ e, u.verifyTokenExpires = some e ∧ now < e) ∧
    ((verifyEmail db tok now).2 = VerifyRes.redirectSuccess ∨
      (verifyEmail db tok now).2 = VerifyRes.invalidOrExpired) := by
  rcases hfind : db.users.find?
      (verifyTokenMatches (sha256Hex (Val.str tok)) now) with _ | u
  · have hno : ¬ ∃ u ∈ db.users,
        u.verifyToken = some (sha256Hex (Val.str tok)) ∧
        ∃ e, u.verifyTokenExpires = some e ∧ now < e := by
      rintro ⟨u, hu, hprop⟩
      exact (List.find?_eq_none.mp hfind u hu)
        ((verifyTokenMatches_iff _ _ u).mpr hprop)
    constructor
    · constructor
      · intro hs
        simp [verifyEmail, ht, hfind] at hs
      · intro hex; exact absurd hex hno
    · right; simp [verifyEmail, ht, hfind]
  · have hp := List.find?_some hfind
    have hmem := List.mem_of_find?_eq_some hfind
    constructor
    · constructor
      · intro _
        exact ⟨u, hmem, (verifyTokenMatches_iff _ _ u).mp hp⟩
      · intro _
        simp [verifyEmail, ht, hfind]
    · left; simp [verifyEmail, ht, hfind]

/-- C4 witness: the pending Ann record verifies before expiry. -/
theorem c4_witness :
    (verifyEmail dbAnnPending "rawtok" 200).2 = VerifyRes.redirectSuccess :=
  ((c4_verify_success_iff_match_unexpired dbAnnPending "rawtok" 200
    (by decide)).1).mpr
    ⟨annPendingUser, by decide, by decide, 100 + 24 * 60 * 60 * 1000,
      by decide, by decide⟩

/-- C6 counterexample: resendVerification on an existing unverified user
with a failing mail transport returns a 500 ServerError — a request-level
error — even though the primary persistence action succeeded, as shown by
the state having changed; the claim says a notification failure never
becomes a request-level error. -/
theorem c6_counterexample :
    (resendVerification dbAnnPending "ann@x.com" "tok2" 500 false).2.1 =
      ResendRes.serverError ∧
    ResendRes.serverError.status = 500 ∧
    (resendVerification dbAnnPending "ann@x.com" "tok2" 500 false).1 ≠
      dbAnnPending := by
  decide

/-- C6 amended: registerUser sends its notifications without awaiting them,
so a transport failure influences neither its result nor its state; but
resendVerification awaits the send, so a transport failure surfaces as a
500 ServerError response — although the freshly persisted token fields are
not rolled back (the resulting state equals the one of a successful send). -/
theorem c6_notification_failure_behavior (db : Db) :
    (∀ (name email password : String) (ph oc so : Option String)
       (s1 s2 : Nat) (tok : String) (now : Nat) (adm : Option String),
       registerUser db name email password ph oc so s1 s2 tok now adm true =
         registerUser db name email password ph oc so s1 s2 tok now adm
           false) ∧
    (∀ (email tok : String) (now : Nat) (u : StoredUser), email ≠ "" →
       findOneByEmail db (normalizeEmail email) = some u →
       u.emailVerified = false →
       (resendVerification db email tok now false).2.1 =
         ResendRes.serverError ∧
       (resendVerification db email tok now false).1 =
         (resendVerification db email tok now true).1) := by
  constructor
  · intro _ _ _ _ _ _ _ _ _ _ _; rfl
  · intro email tok now u he hfind hv
    constructor
    · simp [resendVerification, he, hfind, hv]
    · simp [resendVerification, he, hfind, hv]

/-- C6 witness: the amended resend behavior on the pending Ann. -/
theorem c6_witness :
    (resendVerification dbAnnPending "ann@x.com" "tok2" 500 false).2.1 =
      ResendRes.serverError :=
  ((c6_notification_failure_behavior dbAnnPending).2 "ann@x.com" "tok2" 500
    annPendingUser (by decide) (by decide) (by decide)).1

/-- C3: when at most one stored digest equals the digest of the raw token,
a successful verify clears it, so an immediately repeated verify with the
same raw token fails with InvalidOrExpiredToken and leaves the state
unchanged. -/
theorem c3_verify_token_single_use (db : Db) (tok : String) (now now2 : Nat)
    (db2 : Db)
    (hcount : (db.users.filter
      (fun u => u.verifyToken == some (sha256Hex (Val.str tok)))).length ≤ 1)
    (hfirst : verifyEmail db tok now = (db2, VerifyRes.redirectSuccess)) :
    verifyEmail db2 tok now2 = (db2, VerifyRes.invalidOrExpired) := by
  by_cases ht : tok = ""
  · simp [verifyEmail, ht] at hfirst
  · simp only [verifyEmail, if_neg ht] at hfirst
    rcases hfind : db.users.find?
        (verifyTokenMatches (sha256Hex (Val.str tok)) now) with _ | u
    · rw [hfind] at hfirst; simp at hfirst
    · rw [hfind] at hfirst
      have hdb2 : db2 = { db with
          users := updateFirst
            (verifyTokenMatches (sha256Hex (Val.str tok)) now)
            clearTokenAndVerify db.users } :=
        (congrArg Prod.fst hfirst).symm
      subst hdb2
      simp only [verifyEmail, if_neg ht]
      have hnone : (updateFirst
          (verifyTokenMatches (sha256Hex (Val.str tok)) now)
          clearTokenAndVerify db.users).find?
            (verifyTokenMatches (sha256Hex (Val.str tok)) now2) = none := by
        apply List.find?_eq_none.mpr
        intro x hxmem hpx
        have hdig := digest_of_verifyTokenMatches hpx
        rw [updateFirst_clears_digest (sha256Hex (Val.str tok)) now db.users
          u hcount hfind x hxmem] at hdig
        exact Bool.false_ne_true hdig
      simp [hnone]

/-- C3 witness: verifying the same raw token a second time after Ann was
verified fails. -/
theorem c3_witness :
    verifyEmail dbAnnVerified "rawtok" 300 =
      (dbAnnVerified, VerifyRes.invalidOrExpired) :=
  c3_verify_token_single_use dbAnnPending "rawtok" 200 300 dbAnnVerified
    (by decide) (by decide)

/-- C8: every state reachable through register, verify, resendVerification
and login keeps, for every user, the two token fields present together or
absent together, and a verified user holds neither. -/
theorem c8_token_fields_invariant (db : Db) (h : Reachable db) : dbInv db := by
  induction h with
  | init => intro u hu; simp [initialDb] at hu
  | step db0 op h0 ih => exact dbInv_applyOp op ih

/-- C8 witness: the invariant holds in the state reached by registering
Ann from the empty store. -/
theorem c8_witness : dbInv dbAnnPending :=
  c8_token_fields_invariant dbAnnPending
    (Reachable.step initialDb
      (Op.register "Ann" "Ann@X.com" "secret1" none none none 0 1 "rawtok"
        100 none true) Reachable.init)

theorem flip_same (l : List StoredUser) (i : Nat) (h1 h2 : i < l.length)
    (hfalse : (l.get ⟨i, h1⟩).emailVerified = false)
    (htrue : (l.get ⟨i, h2⟩).emailVerified = true) : False := by
  have hx : (l.get ⟨i, h1⟩).emailVerified = true := htrue
  rw [hfalse] at hx
  exact Bool.false_ne_true hx

theorem get_monotone_of_updateFirst (p : StoredUser → Bool)
    (f : StoredUser → StoredUser)
    (hf : ∀ v, v.emailVerified = true → (f v).emailVerified = true)
    (l : List StoredUser) (i : Nat) (h1 : i < l.length)
    (h2 : i < (updateFirst p f l).length)
    (hv : (l.get ⟨i, h1⟩).emailVerified = true) :
    ((updateFirst p f l).get ⟨i, h2⟩).emailVerified = true := by
  rcases updateFirst_get l i h1 h2 with hc | hc
  · rw [hc]; exact hv
  · rw [hc]; exact hf _ hv

theorem flip_updateFirst (p : StoredUser → Bool) (f : StoredUser → StoredUser)
    (hf : ∀ v, (f v).emailVerified = v.emailVerified)
    (l : List StoredUser) (i : Nat) (h1 : i < l.length)
    (h2 : i < (updateFirst p f l).length)
    (hfalse : (l.get ⟨i, h1⟩).emailVerified = false)
    (htrue : ((updateFirst p f l).get ⟨i, h2⟩).emailVerified = true) :
    False := by
  rcases updateFirst_get l i h1 h2 with hc | hc <;> rw [hc] at htrue
  · rw [hfalse] at htrue; exact Bool.false_ne_true htrue
  · rw [hf, hfalse] at htrue; exact Bool.false_ne_true htrue

theorem mono_append (l : List StoredUser) (nu : StoredUser) (i : Nat)
    (h1 : i < l.length) (h2 : i < (l ++ [nu]).length)
    (hv : (l.get ⟨i, h1⟩).emailVerified = true) :
    ((l ++ [nu]).get ⟨i, h2⟩).emailVerified = true := by
  have hx : (l ++ [nu]).get ⟨i, h2⟩ = l.get ⟨i, h1⟩ := by
    rw [List.get_eq_getElem, List.get_eq_getElem,
      List.getElem_append_left h1]
  rw [hx]; exact hv

theorem new_append (l : List StoredUser) (nu : StoredUser) (i : Nat)
    (h2 : i < (l ++ [nu]).length) (hge : l.length ≤ i) :
    (l ++ [nu]).get ⟨i, h2⟩ = nu := by
  have hi : i = l.length := by
    simp only [List.length_append, List.length_singleton] at h2
    omega
  subst hi
  rw [List.get_eq_getElem, List.getElem_append_right (le_refl _)]
  simp

/-- C9: across one step of any operation, a user keeps its position in the
collection, emailVerified never drops from true to false, a user created
by the step starts with emailVerified false, and a flip from false to true
happens only on a verify step. -/
theorem c9_email_verified_monotone (db : Db) (op : Op) :
    (∀ (i : Nat) (h1 : i < db.users.length)
       (h2 : i < (applyOp db op).users.length),
       (db.users.get ⟨i, h1⟩).emailVerified = true →
       ((applyOp db op).users.get ⟨i, h2⟩).emailVerified = true) ∧
    (∀ (i : Nat) (h2 : i < (applyOp db op).users.length),
       db.users.length ≤ i →
       ((applyOp db op).users.get ⟨i, h2⟩).emailVerified = false) ∧
    (∀ (i : Nat) (h1 : i < db.users.length)
       (h2 : i < (applyOp db op).users.length),
       (db.users.get ⟨i, h1⟩).emailVerified = false →
       ((applyOp db op).users.get ⟨i, h2⟩).emailVerified = true →
       ∃ tok now, op = Op.verify tok now) := by
  cases op with
  | register n e pw ph oc so s1 s2 tok now adm ok =>
    have husers :
        (applyOp db (Op.register n e pw ph oc so s1 s2 tok now adm ok)).users
          = db.users ∨
        ∃ nu : StoredUser, nu.emailVerified = false ∧
          (applyOp db
            (Op.register n e pw ph oc so s1 s2 tok now adm ok)).users =
            db.users ++ [nu] := by
      simp only [applyOp, registerUser]
      split
      · exact Or.inl rfl
      · split
        · exact Or.inl rfl
        · exact Or.inr ⟨_, rfl, rfl⟩
    rcases husers with hu | ⟨nu, hnu, hu⟩ <;> rw [hu]
    · exact ⟨fun i h1 h2 hv => hv,
        fun i h2 hge => absurd h2 (by omega),
        fun i h1 h2 hfalse htrue =>
          (flip_same db.users i h1 h2 hfalse htrue).elim⟩
    · refine ⟨?_, ?_, ?_⟩
      · intro i h1 h2 hv; exact mono_append db.users nu i h1 h2 hv
      · intro i h2 hge; rw [new_append db.users nu i h2 hge]; exact hnu
      · intro i h1 h2 hfalse htrue
        have hx : (db.users ++ [nu]).get ⟨i, h2⟩ = db.users.get ⟨i, h1⟩ := by
          rw [List.get_eq_getElem, List.get_eq_getElem,
            List.getElem_append_left h1]
        rw [hx, hfalse] at htrue
        exact (Bool.false_ne_true htrue).elim
  | verify tok now =>
    have husers : (applyOp db (Op.verify tok now)).users = db.users ∨
        (applyOp db (Op.verify tok now)).users =
          updateFirst (verifyTokenMatches (sha256Hex (Val.str tok)) now)
            clearTokenAndVerify db.users := by
      simp only [applyOp, verifyEmail]
      split
      · exact Or.inl rfl
      · split
        · exact Or.inl rfl
        · exact Or.inr rfl
    rcases husers with hu | hu <;> rw [hu]
    · exact ⟨fun i h1 h2 hv => hv,
        fun i h2 hge => absurd h2 (by omega),
        fun i h1 h2 hfalse htrue => ⟨tok, now, rfl⟩⟩
    · refine ⟨?_, ?_, ?_⟩
      · intro i h1 h2 hv
        exact get_monotone_of_updateFirst _ _ (fun v _ => rfl) db.users i
          h1 h2 hv
      · intro i h2 hge
        rw [updateFirst_length] at h2
        exact absurd h2 (by omega)
      · intro i h1 h2 hfalse htrue; exact ⟨tok, now, rfl⟩
  | resend e tok now ok =>
    have husers : (applyOp db (Op.resend e tok now ok)).users = db.users ∨
        ∃ (p2 : StoredUser → Bool) (f2 : StoredUser → StoredUser),
          (∀ v, (f2 v).emailVerified = v.emailVerified) ∧
          (applyOp db (Op.resend e tok now ok)).users =
            updateFirst p2 f2 db.users := by
      simp only [applyOp, resendVerification]
      split
      · exact Or.inl rfl
      · split
        · exact Or.inl rfl
        · split
          · exact Or.inl rfl
          · split
            · exact Or.inr ⟨fun v => v.email == normalizeEmail e,
                fun v =>
                  { v with verifyToken := some (sha256Hex (Val.str tok)),
                           verifyTokenExpires :=
                             some (now + 24 * 60 * 60 * 1000) },
                fun v => rfl, rfl⟩
            · exact Or.inr ⟨fun v => v.email == normalizeEmail e,
                fun v =>
                  { v with verifyToken := some (sha256Hex (Val.str tok)),
                           verifyTokenExpires :=
                             some (now + 24 * 60 * 60 * 1000) },
                fun v => rfl, rfl⟩
    rcases husers with hu | ⟨p2, f2, hf2, hu⟩ <;> rw [hu]
    · exact ⟨fun i h1 h2 hv => hv,
        fun i h2 hge => absurd h2 (by omega),
        fun i h1 h2 hfalse htrue =>
          (flip_same db.users i h1 h2 hfalse htrue).elim⟩
    · refine ⟨?_, ?_, ?_⟩
      · intro i h1 h2 hv
        apply get_monotone_of_updateFirst p2 f2 _ db.users i h1 h2 hv
        intro v hvv; rw [hf2]; exact hvv
      · intro i h2 hge
        rw [updateFirst_length] at h2
        exact absurd h2 (by omega)
      · intro i h1 h2 hfalse htrue
        exact (flip_updateFirst p2 f2 hf2 db.users i h1 h2 hfalse
          htrue).elim
  | login e pw =>
    have hu : (applyOp db (Op.login e pw)).users = db.users := rfl
    rw [hu]
    exact ⟨fun i h1 h2 hv => hv,
      fun i h2 hge => absurd h2 (by omega),
      fun i h1 h2 hfalse htrue =>
        (flip_same db.users i h1 h2 hfalse htrue).elim⟩

/-- C9 witness: the verified Ann stays verified across a login step. -/
theorem c9_witness :
    ((applyOp dbAnnVerified
      (Op.login "ann@x.com" "secret1")).users.get
        ⟨0, by decide⟩).emailVerified = true :=
  (c9_email_verified_monotone dbAnnVerified
    (Op.login "ann@x.com" "secret1")).1 0 (by decide) (by decide)
    (by decide)

end Acceleott
